import Mathlib

/-!
Verification of the build-qt repository: a shallow embedding of
`src/build_qt/commit_hash_fetcher.py` and `src/build_qt/qt6_build.py`,
with theorems settling the specification's claims about them.
-/

namespace BuildQt

/-! ## String utilities modelling Python string operations -/

/-- Python whitespace characters, as tested by `str.strip()`. -/
def isPyWS (c : Char) : Bool :=
  c == ' ' || c == '\t' || c == '\n' || c == '\r' || c == '\x0b' || c == '\x0c'

/-- Python `str.strip()` on a character list: drop leading and trailing whitespace. -/
def stripList (l : List Char) : List Char :=
  ((l.dropWhile isPyWS).reverse.dropWhile isPyWS).reverse

/-- Python `str.strip()`. -/
def pyStrip (s : String) : String :=
  ⟨stripList s.data⟩

/-- Python `s.split(sep)[0]` for a one-character separator: the prefix of the
list before the first occurrence of `sep` (the whole list when `sep` is absent). -/
def firstField (sep : Char) (l : List Char) : List Char :=
  l.takeWhile (fun c => c != sep)

/-! ## CommitHashFetcher (commit_hash_fetcher.py) -/

/-- Validity predicate taken from the spec's words (section 8): a string is a
valid hash iff it has length 40 and consists only of lowercase hexadecimal
characters.  This is the spec-side definition, to be compared with the check
the code actually performs. -/
def isLowerHexChar (c : Char) : Bool :=
  (decide ('0' ≤ c) && decide (c ≤ '9')) || (decide ('a' ≤ c) && decide (c ≤ 'f'))

/-- Spec-side hash validity: length 40 and all characters lowercase hex. -/
def isValidHash (s : String) : Bool :=
  s.length == 40 && s.data.all isLowerHexChar

/-- The check the code performs on the extracted hash
(`if not commit_hash or len(commit_hash) != 40: raise`): accepted iff
nonempty and of length 40. -/
def hashFormatCheck (s : String) : Bool :=
  !(s == "") && (s.length == 40)

/-- `CommitHashFetcher.fetch_latest_commit_hash`, with the captured stdout of
`git ls-remote` as an explicit parameter.  Strips the output, fails when it is
empty, takes the first line, takes the tab-separated first field, strips it,
and fails unless the `hashFormatCheck` passes; otherwise returns the hash.
(The subprocess timeout and nonzero-exit branches also raise and are not
reached on a produced stdout.) -/
def fetch_latest_commit_hash (stdout : String) : Except String String :=
  let output := pyStrip stdout
  if output == "" then
    .error "No output from git ls-remote"
  else
    let first_line := firstField '\n' output.data
    let commit_hash := pyStrip ⟨firstField '\t' first_line⟩
    if hashFormatCheck commit_hash then
      .ok commit_hash
    else
      .error ("Invalid commit hash format: " ++ commit_hash)

/-- `CommitHashFetcher.update_commit_hash_file`.  When a hash is supplied by
the caller it is used as is; otherwise the latest hash is fetched.  The write
`f.write(commit_hash + '\n')` is modelled by returning the pair of the
returned hash and the file content produced by a successful write. -/
def update_commit_hash_file (stdout : String) (commit_hash : Option String) :
    Except String (String × String) :=
  match commit_hash with
  | some h => .ok (h, h ++ "\n")
  | none =>
    match fetch_latest_commit_hash stdout with
    | .ok h => .ok (h, h ++ "\n")
    | .error e => .error e

/-- `CommitHashFetcher.read_commit_hash_file`.  `file` is `none` when the file
does not exist, otherwise `some content`; `readOk` is `false` when reading the
existing file raises `IOError`.  The code returns `None` when the file is
absent, when its stripped content is empty, and — via `except IOError:
return None` — when reading fails.  The `Except` layer is the exception
channel of the caller; the function never uses it. -/
def read_commit_hash_file (file : Option String) (readOk : Bool) :
    Except String (Option String) :=
  match file with
  | none => .ok none
  | some content =>
    if readOk then
      let c := pyStrip content
      .ok (if c == "" then none else some c)
    else
      .ok none

/-- True on the `ok` branch of an `Except`. -/
def exceptIsOk {ε α : Type} : Except ε α → Bool
  | .ok _ => true
  | .error _ => false

/-! ## Qt6Build pipeline (qt6_build.py)

Each configure/build/install method runs one external process with
`subprocess.run(..., check=True)`, which raises on a nonzero exit code and
thereby aborts the enclosing method and everything sequenced after it.  The
environment is abstracted as an oracle `tool : Stage → Bool` giving each
stage's process exit status; a run records the list of stages actually
invoked and the first stage whose process exited nonzero, if any. -/

/-- The six external-process stages of the pipeline. -/
inductive Stage
  | hostConfigure
  | hostBuild
  | hostInstall
  | crossConfigure
  | crossBuild
  | crossInstall
deriving DecidableEq, BEq, Repr

/-- Outcome of running a sequence of stages: the stages invoked, in order,
and the first failing stage (`none` when every invocation succeeded). -/
structure RunResult where
  trace : List Stage
  failed : Option Stage
deriving DecidableEq, Repr

/-- Run a list of stages in order, stopping at (but recording) the first one
whose process exits nonzero — the effect of `check=True` raising
`CalledProcessError`. -/
def runSeq (tool : Stage → Bool) : List Stage → RunResult
  | [] => ⟨[], none⟩
  | s :: rest =>
    if tool s then
      let r := runSeq tool rest
      ⟨s :: r.trace, r.failed⟩
    else
      ⟨[s], some s⟩

/-- `Qt6Build.configure`: calls `configure_host` only. -/
def qt6Configure (tool : Stage → Bool) : RunResult :=
  runSeq tool [Stage.hostConfigure]

/-- `Qt6Build.build`: calls `build_host`, then `configure_cross`, then
`build_cross`. -/
def qt6BuildPhase (tool : Stage → Bool) : RunResult :=
  runSeq tool [Stage.hostBuild, Stage.crossConfigure, Stage.crossBuild]

/-- `Qt6Build.install`: calls `install_host`, then `install_cross`. -/
def qt6Install (tool : Stage → Bool) : RunResult :=
  runSeq tool [Stage.hostInstall, Stage.crossInstall]

/-- Sequence two runs at the caller level: the second runs only when the
first raised no exception. -/
def seqRuns (r : RunResult) (next : RunResult) : RunResult :=
  match r.failed with
  | some _ => r
  | none => ⟨r.trace ++ next.trace, next.failed⟩

/-- A full pipeline run by the driver: `configure(); build(); install()`. -/
def fullPipeline (tool : Stage → Bool) : RunResult :=
  seqRuns (qt6Configure tool) (seqRuns (qt6BuildPhase tool) (qt6Install tool))

/-! ## Environment setup (Qt6Build.setup_environment) -/

/-- `Qt6Build.setup_environment`, as the transformation it applies to the
process-wide `os.environ['PATH']` value.  The cmake bin directory from the
OHOS SDK is prepended when it is a directory; the configured MinGW path is
then prepended when it is set, nonempty and a directory.  `sep` is
`os.pathsep` and `env0` the prior value of the variable; the function's
return value in Python is `None` — its whole effect is this mutation. -/
def setup_environment (cmakeBinPath : String) (cmakeBinIsDir : Bool)
    (mingwPath : Option String) (mingwIsDir : Bool) (sep env0 : String) : String :=
  let env1 := if cmakeBinIsDir then cmakeBinPath ++ sep ++ env0 else env0
  match mingwPath with
  | none => env1
  | some mp => if !(mp == "") && mingwIsDir then mp ++ sep ++ env1 else env1

/-! ## Runtime DLL copying (Qt6Build.copy_mingw_dlls) -/

/-- Model of `os.path.join` with two components. -/
def joinPath (a b : String) : String := a ++ "/" ++ b

/-- Filesystem effects performed by `copy_mingw_dlls`. -/
inductive CopyEffect
  | makedirs (dir : String)
  | copyFile (src dst : String)
  | warnMissing (src : String)
deriving DecidableEq, Repr

/-- The loop body of `copy_mingw_dlls` over an arbitrary dependency list:
each file is copied when it exists at the source, otherwise a warning is
printed; either way the loop continues with the remaining files. -/
def copyDllLoop (fexists : String → Bool) (mingwBin targetBinDir : String) :
    List String → List CopyEffect
  | [] => []
  | dll :: rest =>
    (if fexists (joinPath mingwBin dll) then
      [CopyEffect.copyFile (joinPath mingwBin dll) (joinPath targetBinDir dll)]
    else
      [CopyEffect.warnMissing (joinPath mingwBin dll)]) ++
    copyDllLoop fexists mingwBin targetBinDir rest

/-- The fixed dependency list `dll_deps` of `copy_mingw_dlls`. -/
def dll_deps : List String :=
  ["libstdc++-6.dll", "libgcc_s_seh-1.dll", "libwinpthread-1.dll"]

/-- `Qt6Build.copy_mingw_dlls`: creates the target directory when absent,
then runs the copy loop over `dll_deps`.  `fexists` is `os.path.exists`. -/
def copy_mingw_dlls (fexists : String → Bool) (mingwBin targetBinDir : String) :
    List CopyEffect :=
  (if fexists targetBinDir then [] else [CopyEffect.makedirs targetBinDir]) ++
  copyDllLoop fexists mingwBin targetBinDir dll_deps

/-! ## Packaging (Qt6Build.pack) -/

/-- The configuration values `pack` consults.  `buildPrefixVal` models
`config.build_prefix()`, with `none` for an unset value. -/
structure PackConfig where
  buildPrefixVal : Option String
  qtVersion : String
  ohosVersion : String
  buildOhosAbi : String
  outputPath : String

/-- Filesystem effects performed by `pack`. -/
inductive FsEffect
  | createArchive (srcDir destPath fmt : String)
deriving DecidableEq, Repr

/-- `Qt6Build.pack`: raises `ValueError` when the install prefix is unset or
empty (Python falsiness of `None` and `''`); otherwise assembles the archive
name from version, target, ABI, platform and timestamp and calls
`create_archive`.  The result pairs the raised-or-returned value with the
list of filesystem effects performed. -/
def pack (cfg : PackConfig) (system timestamp : String) :
    Except String String × List FsEffect :=
  let p := cfg.buildPrefixVal.getD ""
  if p == "" then
    (.error "安装路径未设置，无法打包", [])
  else
    let suffix := if system == "Windows" then "zip" else "tar.gz"
    let packageName :=
      "Qt" ++ cfg.qtVersion ++ "_OHOS" ++ cfg.ohosVersion ++ "_" ++
      cfg.buildOhosAbi ++ "_" ++ system.toLower ++ "_" ++ timestamp ++ "." ++ suffix
    let fullName := joinPath cfg.outputPath packageName
    (.ok fullName, [FsEffect.createArchive p fullName suffix])

/-! ## Directory lifecycle (Qt6Build.__init__ / clean) -/

/-- Existence of directories, as a predicate on paths. -/
def DirSet := String → Bool

/-- `os.makedirs(d)` guarded by `if not os.path.exists(d)`: ensure `d`
exists. -/
def mkdirs (d : String) (st : DirSet) : DirSet :=
  fun x => if x = d then true else st x

/-- `shutil.rmtree(d, ignore_errors=True)` guarded by
`if os.path.exists(d)`: ensure `d` does not exist. -/
def rmtreeDir (d : String) (st : DirSet) : DirSet :=
  fun x => if x = d then false else st x

/-- The two build directories fixed by `Qt6Build.__init__`:
`source_dir/build/host` and `source_dir/build/<build_type>`. -/
structure BuildDirs where
  hostBuildDir : String
  crossBuildDir : String

/-- The directory creation performed by `Qt6Build.__init__`: both build
directories are created when absent. -/
def initBuildDirs (b : BuildDirs) (st : DirSet) : DirSet :=
  mkdirs b.crossBuildDir (mkdirs b.hostBuildDir st)

/-- The public operations of a constructed `Qt6Build` instance. -/
inductive BuildOp
  | configureHost
  | buildHost
  | installHost
  | configureCross
  | buildCross
  | installCross
  | cleanOp
deriving DecidableEq, Repr

/-- The effect of each operation on directory existence.  `configure_host`
and `configure_cross` create (via `copy_mingw_dlls`) the host and cross
install `bin` directories `hostPrefixBin` and `crossPrefixBin`; `clean`
removes both build directories; no other operation creates or removes a
directory. -/
def applyOp (b : BuildDirs) (hostPrefixBin crossPrefixBin : String)
    (st : DirSet) : BuildOp → DirSet
  | .configureHost => mkdirs hostPrefixBin st
  | .configureCross => mkdirs crossPrefixBin st
  | .cleanOp => rmtreeDir b.crossBuildDir (rmtreeDir b.hostBuildDir st)
  | _ => st

/-- Apply a sequence of operations in order. -/
def applyOps (b : BuildDirs) (hostPrefixBin crossPrefixBin : String)
    (st : DirSet) : List BuildOp → DirSet
  | [] => st
  | op :: rest =>
    applyOps b hostPrefixBin crossPrefixBin
      (applyOp b hostPrefixBin crossPrefixBin st op) rest

/-- A string of forty z characters: passes the code's length check while
violating the hexadecimal character-set requirement. -/
def zhash : String := ⟨List.replicate 40 'z'⟩

/-! ## Helper lemmas -/

/-- Whatever `fetch_latest_commit_hash` returns on the ok branch has length
exactly 40 and is the stripped first tab-field of the first line of the
stripped output. -/
theorem fetch_ok_spec (stdout h : String)
    (hf : fetch_latest_commit_hash stdout = .ok h) :
    h.length = 40 ∧
    h = pyStrip ⟨firstField '\t' (firstField '\n' (pyStrip stdout).data)⟩ := by
  simp only [fetch_latest_commit_hash] at hf
  split at hf
  · exact absurd hf (by simp)
  · split at hf
    · rename_i hchk
      obtain rfl : _ = h := by injection hf
      refine ⟨?_, rfl⟩
      have h2 := (Bool.and_eq_true _ _).mp hchk |>.right
      exact eq_of_beq h2
    · exact absurd hf (by simp)

/-- The code's hash check is exactly the length-40 test. -/
theorem hashFormatCheck_eq_length (s : String) :
    hashFormatCheck s = (s.length == 40) := by
  cases hsb : s == ""
  · simp [hashFormatCheck, hsb]
  · have : s = "" := eq_of_beq hsb
    subst this
    rfl

/-- A lowercase hexadecimal character is not Python whitespace. -/
theorem lowerHex_not_ws (c : Char) (h : isLowerHexChar c = true) :
    isPyWS c = false := by
  have h' : ('0' ≤ c ∧ c ≤ '9') ∨ ('a' ≤ c ∧ c ≤ 'f') := by
    simpa [isLowerHexChar] using h
  have h0 : '0' ≤ c := by
    rcases h' with ⟨h1, _⟩ | ⟨h1, _⟩
    · exact h1
    · exact le_trans (by decide) h1
  simp only [isPyWS, Bool.or_eq_false_iff, beq_eq_false_iff_ne, ne_eq]
  refine ⟨⟨⟨⟨⟨?_, ?_⟩, ?_⟩, ?_⟩, ?_⟩, ?_⟩ <;>
    · rintro rfl
      revert h0
      decide

/-- `dropWhile` of whitespace leaves a list of hexadecimal characters
unchanged. -/
theorem dropWhile_ws_hex (l : List Char)
    (h : ∀ c ∈ l, isLowerHexChar c = true) :
    l.dropWhile isPyWS = l := by
  cases l with
  | nil => rfl
  | cons a t =>
    exact List.dropWhile_cons_of_neg (by
      simp [lowerHex_not_ws a (h a (by simp))])

/-- Stripping a nonempty hexadecimal string followed by one newline yields
the string back. -/
theorem stripList_hex_newline (l : List Char) (hne : l ≠ [])
    (h : ∀ c ∈ l, isLowerHexChar c = true) :
    stripList (l ++ ['\n']) = l := by
  obtain ⟨a, t, rfl⟩ := List.exists_cons_of_ne_nil hne
  have ha : isPyWS a = false := lowerHex_not_ws a (h a (by simp))
  unfold stripList
  rw [show (a :: t) ++ ['\n'] = a :: (t ++ ['\n']) from rfl,
    List.dropWhile_cons_of_neg (by simp [ha]),
    List.reverse_cons, List.reverse_append]
  have hrw : (['\n'].reverse ++ t.reverse) ++ [a] = '\n' :: (t.reverse ++ [a]) := by
    simp
  rw [hrw, List.dropWhile_cons_of_pos (by simp [isPyWS]),
    show t.reverse ++ [a] = (a :: t).reverse from (List.reverse_cons a t).symm,
    dropWhile_ws_hex _ (by intro c hc; exact h c (List.mem_reverse.mp hc)),
    List.reverse_reverse]

/-- Stripping `H ++ "\n"` for a valid hash `H` gives back `H`. -/
theorem pyStrip_hash_newline (H : String) (hv : isValidHash H = true) :
    pyStrip (H ++ "\n") = H := by
  have hv' := (Bool.and_eq_true _ _).mp hv
  have hlen : H.data.length = 40 := eq_of_beq hv'.left
  have hall : ∀ c ∈ H.data, isLowerHexChar c = true :=
    fun c hc => List.all_eq_true.mp hv'.right c hc
  have hne : H.data ≠ [] := by
    intro h0
    rw [h0] at hlen
    simp at hlen
  show (⟨stripList (H ++ "\n").data⟩ : String) = H
  have hdata : (H ++ "\n").data = H.data ++ ['\n'] := rfl
  rw [hdata, stripList_hex_newline H.data hne hall]

/-- A valid hash is nonempty. -/
theorem validHash_ne_empty (H : String) (hv : isValidHash H = true) :
    (H == "") = false := by
  have hv' := (Bool.and_eq_true _ _).mp hv
  have hlen : H.data.length = 40 := eq_of_beq hv'.left
  apply beq_eq_false_iff_ne.mpr
  intro h0
  rw [h0] at hlen
  simp at hlen

/-! ## Claims -/

/-- Claim C2, counterexample: the fetcher's validity check is not the
conjunction of length 40 and lowercase-hexadecimal characters.  The string
of forty z characters passes the code's check, and `fetch_latest_commit_hash`
returns it, although it is not a lowercase hexadecimal string. -/
theorem C2_counterexample :
    hashFormatCheck zhash = true ∧
    isValidHash zhash = false ∧
    fetch_latest_commit_hash (zhash ++ "\trefs/heads/main\n") = .ok zhash :=
  ⟨rfl, rfl, rfl⟩

/-- Claim C2, amended: the fetcher's hash validity check holds iff the
string has length exactly 40 — the character set is not inspected; and
whenever `fetch_latest_commit_hash` succeeds, the returned value has length
40 and is exactly the stripped first tab-separated field of the first line
of the stripped remote output, discarding the reference name. -/
theorem C2_hash_check :
    (∀ s : String, hashFormatCheck s = (s.length == 40)) ∧
    (∀ stdout h : String, fetch_latest_commit_hash stdout = .ok h →
      h.length = 40 ∧
      h = pyStrip ⟨firstField '\t' (firstField '\n' (pyStrip stdout).data)⟩) :=
  ⟨hashFormatCheck_eq_length, fetch_ok_spec⟩

/-- Witness for C2_hash_check at a concrete remote output. -/
theorem C2_hash_check_witness :
    (⟨List.replicate 40 'a'⟩ : String).length = 40 ∧
    (⟨List.replicate 40 'a'⟩ : String) =
      pyStrip ⟨firstField '\t'
        (firstField '\n'
          (pyStrip ((⟨List.replicate 40 'a'⟩ : String) ++ "\trefs/heads/main\n")).data)⟩ :=
  C2_hash_check.2 ((⟨List.replicate 40 'a'⟩ : String) ++ "\trefs/heads/main\n")
    ⟨List.replicate 40 'a'⟩ rfl

/-- Claim C3, counterexample: a caller-supplied value that is not a
40-character lowercase hexadecimal string is persisted unchanged by
`update_commit_hash_file` — no rejection happens before the write. -/
theorem C3_counterexample :
    update_commit_hash_file "" (some "not-a-valid-hash") =
      .ok ("not-a-valid-hash", "not-a-valid-hash\n") ∧
    isValidHash "not-a-valid-hash" = false :=
  ⟨rfl, rfl⟩

/-- Claim C3, amended: after a successful `update_commit_hash_file` the file
content is the written value followed by a single trailing newline; a
caller-supplied value is written verbatim without any format validation,
and a fetched value is guaranteed only to have length 40 (its character set
is not checked). -/
theorem C3_update_no_validation :
    ∀ (stdout : String) (arg : Option String) (h c : String),
      update_commit_hash_file stdout arg = .ok (h, c) →
      c = h ++ "\n" ∧
      (∀ x, arg = some x → h = x) ∧
      (arg = none → h.length = 40) := by
  intro stdout arg h c hu
  cases arg with
  | some x =>
    simp only [update_commit_hash_file] at hu
    obtain ⟨rfl, rfl⟩ : x = h ∧ x ++ "\n" = c := by
      constructor <;> · injection hu with hu'; cases hu'; rfl
    exact ⟨rfl, fun y hy => by cases hy; rfl, fun hn => by cases hn⟩
  | none =>
    simp only [update_commit_hash_file] at hu
    cases hfetch : fetch_latest_commit_hash stdout with
    | ok v =>
      rw [hfetch] at hu
      obtain ⟨rfl, rfl⟩ : v = h ∧ v ++ "\n" = c := by
        constructor <;> · injection hu with hu'; cases hu'; rfl
      refine ⟨rfl, fun y hy => ?_, fun _ => (fetch_ok_spec stdout v hfetch).left⟩
      cases hy
    | error e =>
      rw [hfetch] at hu
      exact absurd hu (by simp)

/-- Witness for C3_update_no_validation at a concrete caller-supplied value. -/
theorem C3_update_no_validation_witness :
    ("abc\n" : String) = "abc" ++ "\n" ∧
    (∀ x, (some "abc" : Option String) = some x → "abc" = x) ∧
    ((some "abc" : Option String) = none → ("abc" : String).length = 40) :=
  C3_update_no_validation "" (some "abc") "abc" "abc\n" rfl

/-- Claim C4, counterexample: when the commit-hash file exists but reading
it fails with an `IOError`, `read_commit_hash_file` returns `None` on the
ordinary return channel — no error is raised or propagated. -/
theorem C4_counterexample :
    read_commit_hash_file (some "abc") false = .ok none :=
  rfl

/-- Claim C4, amended: `read_commit_hash_file` never propagates an error:
it returns normally for every combination of file state and read outcome,
and in particular silently returns `None` when reading an existing file
fails for an I/O reason. -/
theorem C4_read_silently_none :
    (∀ (file : Option String) (readOk : Bool),
      exceptIsOk (read_commit_hash_file file readOk) = true) ∧
    read_commit_hash_file (some "line") false = .ok none := by
  constructor
  · intro file readOk
    cases file with
    | none => rfl
    | some content =>
      cases readOk with
      | true => simp [read_commit_hash_file, exceptIsOk]
      | false => rfl
  · rfl

/-- Claim C5, counterexample: `setup_environment` does mutate the ambient
process-wide search-path variable: with both tool directories present, the
PATH value after the call differs from the value before it, and the MinGW
entry — not the build-driver entry — ends up first. -/
theorem C5_counterexample :
    setup_environment "/sdk/cmake/bin" true (some "/mingw/bin") true ":" "/usr/bin" =
      "/mingw/bin:/sdk/cmake/bin:/usr/bin" ∧
    decide (setup_environment "/sdk/cmake/bin" true (some "/mingw/bin") true ":"
      "/usr/bin" = "/usr/bin") = false :=
  ⟨rfl, by decide⟩

/-- Claim C5, amended: environment preparation mutates the process-wide
search-path variable in place and returns no overlay: the SDK cmake bin
directory is prepended when it is a directory, and the MinGW directory is
then prepended on top of it when configured and existing, so the
auxiliary-runtime entry receives the highest search priority; when neither
location exists the variable is left unchanged. -/
theorem C5_setup_env_mutates :
    ∀ (cmakeBinPath mp sep env0 : String), (mp == "") = false →
      setup_environment cmakeBinPath true (some mp) true sep env0 =
        mp ++ sep ++ (cmakeBinPath ++ sep ++ env0) ∧
      setup_environment cmakeBinPath true none false sep env0 =
        cmakeBinPath ++ sep ++ env0 ∧
      setup_environment cmakeBinPath false none false sep env0 = env0 := by
  intro cmakeBinPath mp sep env0 hmp
  refine ⟨?_, rfl, rfl⟩
  simp [setup_environment, hmp]

/-- Witness for C5_setup_env_mutates at concrete paths. -/
theorem C5_setup_env_mutates_witness :
    setup_environment "/sdk/cmake/bin" true (some "/mingw") true ":" "/usr/bin" =
      "/mingw" ++ ":" ++ ("/sdk/cmake/bin" ++ ":" ++ "/usr/bin") ∧
    setup_environment "/sdk/cmake/bin" true none false ":" "/usr/bin" =
      "/sdk/cmake/bin" ++ ":" ++ "/usr/bin" ∧
    setup_environment "/sdk/cmake/bin" false none false ":" "/usr/bin" = "/usr/bin" :=
  C5_setup_env_mutates "/sdk/cmake/bin" "/mingw" ":" "/usr/bin" rfl

/-- Claim C7: for every valid hash, reading the commit-hash file immediately
after a successful update returns exactly that hash, with no surrounding
whitespace: the update writes the hash plus one newline, and the read strips
that newline back off. -/
theorem C7_roundtrip (H : String) (hv : isValidHash H = true) :
    update_commit_hash_file "" (some H) = .ok (H, H ++ "\n") ∧
    read_commit_hash_file (some (H ++ "\n")) true = .ok (some H) := by
  refine ⟨rfl, ?_⟩
  have hs := pyStrip_hash_newline H hv
  have hne := validHash_ne_empty H hv
  simp [read_commit_hash_file, hs, hne]

/-- Witness for C7_roundtrip at a concrete valid hash. -/
theorem C7_roundtrip_witness :
    update_commit_hash_file "" (some ⟨List.replicate 40 'a'⟩) =
      .ok (⟨List.replicate 40 'a'⟩, (⟨List.replicate 40 'a'⟩ : String) ++ "\n") ∧
    read_commit_hash_file (some ((⟨List.replicate 40 'a'⟩ : String) ++ "\n")) true =
      .ok (some ⟨List.replicate 40 'a'⟩) :=
  C7_roundtrip ⟨List.replicate 40 'a'⟩ rfl

/-- Claim C8: calling `pack` with an unset or empty install prefix raises
the configuration `ValueError` and performs zero filesystem operations — in
particular no archive creation is attempted. -/
theorem C8_pack_empty_prefix (cfg : PackConfig) (system timestamp : String)
    (h : cfg.buildPrefixVal = none ∨ cfg.buildPrefixVal = some "") :
    pack cfg system timestamp = (.error "安装路径未设置，无法打包", []) := by
  rcases h with h | h <;> simp [pack, h]

/-- Claim C1, counterexample: a full successful pipeline run
(`configure(); build(); install()` with every external process exiting
zero) invokes the stages in the order HostConfigure, HostBuild,
CrossConfigure, CrossBuild, HostInstall, CrossInstall — not the claimed
order with HostInstall before CrossConfigure. -/
theorem C1_counterexample :
    (fullPipeline (fun _ => true)).trace =
      [Stage.hostConfigure, Stage.hostBuild, Stage.crossConfigure,
       Stage.crossBuild, Stage.hostInstall, Stage.crossInstall] ∧
    decide ((fullPipeline (fun _ => true)).trace =
      [Stage.hostConfigure, Stage.hostBuild, Stage.hostInstall,
       Stage.crossConfigure, Stage.crossBuild, Stage.crossInstall]) = false :=
  ⟨rfl, by decide⟩

/-- Claim C1, amended: across a full successful pipeline run the stage
invocations occur in exactly the order HostConfigure, HostBuild,
CrossConfigure, CrossBuild, HostInstall, CrossInstall; the cross configure
step is reachable only after the host configure and host build steps have
completed successfully (it runs inside `build()`, before `install_host`). -/
theorem C1_pipeline_order (tool : Stage → Bool) :
    ((fullPipeline tool).failed = none →
      (fullPipeline tool).trace =
        [Stage.hostConfigure, Stage.hostBuild, Stage.crossConfigure,
         Stage.crossBuild, Stage.hostInstall, Stage.crossInstall]) ∧
    (Stage.crossConfigure ∈ (fullPipeline tool).trace →
      tool Stage.hostConfigure = true ∧ tool Stage.hostBuild = true) := by
  by_cases h1 : tool Stage.hostConfigure = true <;>
  by_cases h2 : tool Stage.hostBuild = true <;>
  by_cases h3 : tool Stage.crossConfigure = true <;>
  by_cases h4 : tool Stage.crossBuild = true <;>
  by_cases h5 : tool Stage.hostInstall = true <;>
  by_cases h6 : tool Stage.crossInstall = true <;>
  simp_all [fullPipeline, qt6Configure, qt6BuildPhase, qt6Install, seqRuns, runSeq]

/-- Witness for C1_pipeline_order on the all-successful tool oracle. -/
theorem C1_pipeline_order_witness :
    (fullPipeline (fun _ => true)).trace =
      [Stage.hostConfigure, Stage.hostBuild, Stage.crossConfigure,
       Stage.crossBuild, Stage.hostInstall, Stage.crossInstall] ∧
    ((fun _ : Stage => true) Stage.hostConfigure = true ∧
     (fun _ : Stage => true) Stage.hostBuild = true) :=
  ⟨(C1_pipeline_order (fun _ => true)).1 rfl,
   (C1_pipeline_order (fun _ => true)).2 (by
     rw [show (fullPipeline (fun _ => true)).trace =
       [Stage.hostConfigure, Stage.hostBuild, Stage.crossConfigure,
        Stage.crossBuild, Stage.hostInstall, Stage.crossInstall] from rfl]
     simp)⟩

/-- Claim C6: if the host build step exits with a nonzero code, the pipeline
halts: `install_host`, `configure_cross`, `build_cross` and `install_cross`
are never invoked afterward, `build_host` is invoked at most once (no
automatic retry), and whenever `build_host` was reached its failure is the
one that propagates to the caller. -/
theorem C6_short_circuit (tool : Stage → Bool)
    (hfail : tool Stage.hostBuild = false) :
    (fullPipeline tool).trace.contains Stage.hostInstall = false ∧
    (fullPipeline tool).trace.contains Stage.crossConfigure = false ∧
    (fullPipeline tool).trace.contains Stage.crossBuild = false ∧
    (fullPipeline tool).trace.contains Stage.crossInstall = false ∧
    (fullPipeline tool).trace.count Stage.hostBuild ≤ 1 ∧
    ((fullPipeline tool).trace.contains Stage.hostBuild = true →
      (fullPipeline tool).failed = some Stage.hostBuild) := by
  by_cases h1 : tool Stage.hostConfigure = true <;>
  simp_all [fullPipeline, qt6Configure, qt6BuildPhase, qt6Install, seqRuns, runSeq] <;>
  decide

/-- Witness for C6_short_circuit with a tool oracle failing exactly at the
host build stage. -/
theorem C6_short_circuit_witness :
    (fullPipeline (fun s => !(s == Stage.hostBuild))).trace.contains
      Stage.hostInstall = false ∧
    (fullPipeline (fun s => !(s == Stage.hostBuild))).trace.contains
      Stage.crossConfigure = false ∧
    (fullPipeline (fun s => !(s == Stage.hostBuild))).trace.contains
      Stage.crossBuild = false ∧
    (fullPipeline (fun s => !(s == Stage.hostBuild))).trace.contains
      Stage.crossInstall = false ∧
    (fullPipeline (fun s => !(s == Stage.hostBuild))).trace.count
      Stage.hostBuild ≤ 1 ∧
    ((fullPipeline (fun s => !(s == Stage.hostBuild))).trace.contains
      Stage.hostBuild = true →
      (fullPipeline (fun s => !(s == Stage.hostBuild))).failed =
        some Stage.hostBuild) :=
  C6_short_circuit (fun s => !(s == Stage.hostBuild)) rfl

/-- Witness for C8_pack_empty_prefix at a concrete configuration. -/
theorem C8_pack_empty_prefix_witness :
    pack ⟨none, "6.6.0", "5.0", "arm64-v8a", "/out"⟩ "Windows" "202610121200" =
      (.error "安装路径未设置，无法打包", []) :=
  C8_pack_empty_prefix ⟨none, "6.6.0", "5.0", "arm64-v8a", "/out"⟩
    "Windows" "202610121200" (Or.inl rfl)

/-- Every dependency in the list is processed by the copy loop: copied when
present at the source, reported missing when absent — regardless of what
happens to the other entries. -/
theorem copyDllLoop_mem (fexists : String → Bool) (mingwBin targetBinDir : String) :
    ∀ (deps : List String) (dll : String), dll ∈ deps →
      (fexists (joinPath mingwBin dll) = true →
        CopyEffect.copyFile (joinPath mingwBin dll) (joinPath targetBinDir dll) ∈
          copyDllLoop fexists mingwBin targetBinDir deps) ∧
      (fexists (joinPath mingwBin dll) = false →
        CopyEffect.warnMissing (joinPath mingwBin dll) ∈
          copyDllLoop fexists mingwBin targetBinDir deps) := by
  intro deps
  induction deps with
  | nil => intro dll h; cases h
  | cons d rest ih =>
    intro dll h
    rcases List.mem_cons.mp h with rfl | hmem
    · constructor <;> intro hex <;> simp [copyDllLoop, hex]
    · constructor <;> intro hex
      · exact List.mem_append_right _ (((ih dll hmem).1) hex)
      · exact List.mem_append_right _ (((ih dll hmem).2) hex)

/-- The copy loop performs no directory creation. -/
theorem copyDllLoop_no_makedirs (fexists : String → Bool)
    (mingwBin targetBinDir d : String) :
    ∀ deps : List String,
      (CopyEffect.makedirs d ∈ copyDllLoop fexists mingwBin targetBinDir deps) →
        False := by
  intro deps
  induction deps with
  | nil => intro h; cases h
  | cons a rest ih =>
    intro h
    rcases List.mem_append.mp h with h1 | h2
    · revert h1
      split <;> · intro h1; rcases List.mem_singleton.mp h1 with h1; cases h1
    · exact ih h2

/-- Claim C9: runtime-dependency copying is best-effort — for every
dependency list, each file present at the source is copied, each absent one
is reported as a missing-file warning rather than an error, later files are
still attempted after a miss (membership holds whatever the other files'
existence), and the destination directory is created exactly when it does
not already exist.  The function is total: no input makes it raise. -/
theorem C9_copy_best_effort (fexists : String → Bool)
    (mingwBin targetBinDir : String) :
    (∀ (deps : List String) (dll : String), dll ∈ deps →
      (fexists (joinPath mingwBin dll) = true →
        CopyEffect.copyFile (joinPath mingwBin dll) (joinPath targetBinDir dll) ∈
          copyDllLoop fexists mingwBin targetBinDir deps) ∧
      (fexists (joinPath mingwBin dll) = false →
        CopyEffect.warnMissing (joinPath mingwBin dll) ∈
          copyDllLoop fexists mingwBin targetBinDir deps)) ∧
    (∀ dll : String, dll ∈ dll_deps →
      (fexists (joinPath mingwBin dll) = true →
        CopyEffect.copyFile (joinPath mingwBin dll) (joinPath targetBinDir dll) ∈
          copy_mingw_dlls fexists mingwBin targetBinDir) ∧
      (fexists (joinPath mingwBin dll) = false →
        CopyEffect.warnMissing (joinPath mingwBin dll) ∈
          copy_mingw_dlls fexists mingwBin targetBinDir)) ∧
    ((CopyEffect.makedirs targetBinDir ∈
        copy_mingw_dlls fexists mingwBin targetBinDir) ↔
      fexists targetBinDir = false) := by
  refine ⟨copyDllLoop_mem fexists mingwBin targetBinDir, ?_, ?_⟩
  · intro dll hmem
    have h := copyDllLoop_mem fexists mingwBin targetBinDir dll_deps dll hmem
    exact ⟨fun hex => List.mem_append_right _ (h.1 hex),
           fun hex => List.mem_append_right _ (h.2 hex)⟩
  · constructor
    · intro hmem
      cases hex : fexists targetBinDir
      · rfl
      · exact absurd (by simpa [copy_mingw_dlls, hex] using hmem)
          (fun h => copyDllLoop_no_makedirs fexists mingwBin
            targetBinDir targetBinDir dll_deps h)
    · intro hex
      simp [copy_mingw_dlls, hex]

/-- Witness for C9_copy_best_effort: the first DLL exists at the source and
is copied, the second is absent and reported missing, and the absent
destination directory is created. -/
theorem C9_copy_best_effort_witness :
    (CopyEffect.copyFile (joinPath "/mingw" "libstdc++-6.dll")
        (joinPath "/qt/bin" "libstdc++-6.dll") ∈
      copy_mingw_dlls (fun s => s == joinPath "/mingw" "libstdc++-6.dll")
        "/mingw" "/qt/bin") ∧
    (CopyEffect.warnMissing (joinPath "/mingw" "libgcc_s_seh-1.dll") ∈
      copy_mingw_dlls (fun s => s == joinPath "/mingw" "libstdc++-6.dll")
        "/mingw" "/qt/bin") ∧
    (CopyEffect.makedirs "/qt/bin" ∈
      copy_mingw_dlls (fun s => s == joinPath "/mingw" "libstdc++-6.dll")
        "/mingw" "/qt/bin") :=
  ⟨((C9_copy_best_effort (fun s => s == joinPath "/mingw" "libstdc++-6.dll")
      "/mingw" "/qt/bin").2.1 "libstdc++-6.dll" (by simp [dll_deps])).1 (by rfl),
   ((C9_copy_best_effort (fun s => s == joinPath "/mingw" "libstdc++-6.dll")
      "/mingw" "/qt/bin").2.1 "libgcc_s_seh-1.dll" (by simp [dll_deps])).2 (by rfl),
   ((C9_copy_best_effort (fun s => s == joinPath "/mingw" "libstdc++-6.dll")
      "/mingw" "/qt/bin").2.2).mpr (by rfl)⟩

/-- `mkdirs` makes its directory exist. -/
theorem mkdirs_self (d : String) (st : DirSet) : mkdirs d st d = true := by
  simp [mkdirs]

/-- `mkdirs` leaves other paths unchanged. -/
theorem mkdirs_other (d x : String) (st : DirSet) (h : x ≠ d) :
    mkdirs d st x = st x := by
  simp [mkdirs, h]

/-- `rmtreeDir` removes its directory. -/
theorem rmtree_self (d : String) (st : DirSet) : rmtreeDir d st d = false := by
  simp [rmtreeDir]

/-- `rmtreeDir` leaves other paths unchanged. -/
theorem rmtree_other (d x : String) (st : DirSet) (h : x ≠ d) :
    rmtreeDir d st x = st x := by
  simp [rmtreeDir, h]

/-- A path distinct from both install `bin` directories that does not exist
stays nonexistent across every single operation. -/
theorem applyOp_absent (b : BuildDirs) (hpb cpb : String) (st : DirSet)
    (x : String) (hx1 : x ≠ hpb) (hx2 : x ≠ cpb) (hh : st x = false) :
    ∀ op, (applyOp b hpb cpb st op) x = false := by
  intro op
  cases op
  case configureHost =>
    simp only [applyOp]
    rw [mkdirs_other _ _ _ hx1]
    exact hh
  case configureCross =>
    simp only [applyOp]
    rw [mkdirs_other _ _ _ hx2]
    exact hh
  case cleanOp =>
    simp only [applyOp]
    by_cases hc : x = b.crossBuildDir
    · rw [hc, rmtree_self]
    · rw [rmtree_other _ _ _ hc]
      by_cases hho : x = b.hostBuildDir
      · rw [hho, rmtree_self]
      · rw [rmtree_other _ _ _ hho]
        exact hh
  all_goals exact hh

/-- After both build directories are absent, no later operation on the
instance recreates them, provided the two install `bin` directories are
distinct from the build directories. -/
theorem applyOps_keeps_absent (b : BuildDirs) (hpb cpb : String)
    (h1 : hpb ≠ b.hostBuildDir) (h2 : hpb ≠ b.crossBuildDir)
    (h3 : cpb ≠ b.hostBuildDir) (h4 : cpb ≠ b.crossBuildDir) :
    ∀ (ops : List BuildOp) (st : DirSet),
      st b.hostBuildDir = false → st b.crossBuildDir = false →
      (applyOps b hpb cpb st ops) b.hostBuildDir = false ∧
      (applyOps b hpb cpb st ops) b.crossBuildDir = false := by
  intro ops
  induction ops with
  | nil => intro st hh hc; exact ⟨hh, hc⟩
  | cons op rest ih =>
    intro st hh hc
    apply ih
    · exact applyOp_absent b hpb cpb st b.hostBuildDir
        (Ne.symm h1) (Ne.symm h3) hh op
    · exact applyOp_absent b hpb cpb st b.crossBuildDir
        (Ne.symm h2) (Ne.symm h4) hc op

/-- Claim C10: the two build directories are created (when absent) only by
the constructor; `clean` removes both, and — as long as the install `bin`
directories that `copy_mingw_dlls` may create are distinct paths from the
build directories — no configure/build/install/clean operation recreates
them, so after `clean` every subsequent operation sequence leaves both
working directories nonexistent. -/
theorem C10_clean_dirs (b : BuildDirs) (hpb cpb : String) (st : DirSet)
    (ops : List BuildOp)
    (h1 : hpb ≠ b.hostBuildDir) (h2 : hpb ≠ b.crossBuildDir)
    (h3 : cpb ≠ b.hostBuildDir) (h4 : cpb ≠ b.crossBuildDir) :
    (initBuildDirs b st) b.hostBuildDir = true ∧
    (initBuildDirs b st) b.crossBuildDir = true ∧
    (applyOp b hpb cpb st BuildOp.cleanOp) b.hostBuildDir = false ∧
    (applyOp b hpb cpb st BuildOp.cleanOp) b.crossBuildDir = false ∧
    (applyOps b hpb cpb (applyOp b hpb cpb st BuildOp.cleanOp) ops)
      b.hostBuildDir = false ∧
    (applyOps b hpb cpb (applyOp b hpb cpb st BuildOp.cleanOp) ops)
      b.crossBuildDir = false := by
  have hcl : (applyOp b hpb cpb st BuildOp.cleanOp) b.hostBuildDir = false ∧
      (applyOp b hpb cpb st BuildOp.cleanOp) b.crossBuildDir = false := by
    constructor
    · simp only [applyOp]
      by_cases hc : b.hostBuildDir = b.crossBuildDir
      · rw [hc, rmtree_self]
      · rw [rmtree_other _ _ _ hc, rmtree_self]
    · simp only [applyOp]
      rw [rmtree_self]
  have hrest := applyOps_keeps_absent b hpb cpb h1 h2 h3 h4 ops
    (applyOp b hpb cpb st BuildOp.cleanOp) hcl.1 hcl.2
  refine ⟨?_, ?_, hcl.1, hcl.2, hrest.1, hrest.2⟩
  · simp only [initBuildDirs]
    by_cases hc : b.hostBuildDir = b.crossBuildDir
    · rw [hc, mkdirs_self]
    · rw [mkdirs_other _ _ _ hc, mkdirs_self]
  · simp only [initBuildDirs]
    rw [mkdirs_self]

/-- Witness for C10_clean_dirs at concrete paths: after `clean`, running the
whole stage sequence again leaves both build directories nonexistent. -/
theorem C10_clean_dirs_witness :
    (initBuildDirs ⟨"/src/build/host", "/src/build/ohos"⟩ (fun _ => false))
      "/src/build/host" = true ∧
    (initBuildDirs ⟨"/src/build/host", "/src/build/ohos"⟩ (fun _ => false))
      "/src/build/ohos" = true ∧
    (applyOp ⟨"/src/build/host", "/src/build/ohos"⟩ "/qt/host/bin" "/qt/ohos/bin"
      (fun _ => true) BuildOp.cleanOp) "/src/build/host" = false ∧
    (applyOp ⟨"/src/build/host", "/src/build/ohos"⟩ "/qt/host/bin" "/qt/ohos/bin"
      (fun _ => true) BuildOp.cleanOp) "/src/build/ohos" = false ∧
    (applyOps ⟨"/src/build/host", "/src/build/ohos"⟩ "/qt/host/bin" "/qt/ohos/bin"
      (applyOp ⟨"/src/build/host", "/src/build/ohos"⟩ "/qt/host/bin" "/qt/ohos/bin"
        (fun _ => true) BuildOp.cleanOp)
      [BuildOp.configureHost, BuildOp.buildHost, BuildOp.installHost,
       BuildOp.configureCross, BuildOp.buildCross, BuildOp.installCross])
      "/src/build/host" = false ∧
    (applyOps ⟨"/src/build/host", "/src/build/ohos"⟩ "/qt/host/bin" "/qt/ohos/bin"
      (applyOp ⟨"/src/build/host", "/src/build/ohos"⟩ "/qt/host/bin" "/qt/ohos/bin"
        (fun _ => true) BuildOp.cleanOp)
      [BuildOp.configureHost, BuildOp.buildHost, BuildOp.installHost,
       BuildOp.configureCross, BuildOp.buildCross, BuildOp.installCross])
      "/src/build/ohos" = false :=
  C10_clean_dirs ⟨"/src/build/host", "/src/build/ohos"⟩ "/qt/host/bin" "/qt/ohos/bin"
    (fun _ => true)
    [BuildOp.configureHost, BuildOp.buildHost, BuildOp.installHost,
     BuildOp.configureCross, BuildOp.buildCross, BuildOp.installCross]
    (by decide) (by decide) (by decide) (by decide)

end BuildQt
